import Mathlib

/-!
Shallow embedding of the MediBot chat glue (src/main.py): the payload
builder, reply extractor and interaction loop, with the remote inference
call abstracted as an oracle argument.
-/

/-- Role of a transcript message (`"user"` / `"assistant"` dict values in the
session state). -/
inductive Role
  | user
  | assistant
deriving DecidableEq, Repr

/-- A transcript message: the dicts stored in `st.session_state.messages`.
The optional attachment field mirrors the spec's data model; the code of
main.py never stores one. -/
structure Message where
  role : Role
  content : String
  attachment : Option String := none
deriving DecidableEq, Repr

/-- One part of a payload turn: plain text, or the inline-data dict built at
main.py lines 53-58. -/
inductive PayloadPart
  | text (s : String)
  | inline_data (mime_type : String) (data : String)
deriving DecidableEq, Repr

/-- One payload turn: a dict with a role string and a parts list. -/
structure Turn where
  role : String
  parts : List PayloadPart
deriving DecidableEq, Repr

/-- The text of SYSTEM_PROMPT_TEMPLATE before the language placeholder. -/
def SYSTEM_PROMPT_BEFORE_LANGUAGE : String :=
  "You are MediBot, a soft-spoken, empathetic medical advisory assistant.\n" ++
  "- Speak in a caring, calm tone.\n" ++
  "- Your primary role is to provide general, educational information about symptoms and conditions.\n" ++
  "- DO NOT provide any diagnoses, prescriptions, or definitive medical advice. This is crucial.\n" ++
  "- If the user asks an unrelated question, reply gently: '⚠️ I can only help with medical-related queries.'\n" ++
  "- For any medical query, always provide information on self-care measures and strongly recommend consulting a healthcare professional.\n" ++
  "- Use the requested language: "

/-- The text of SYSTEM_PROMPT_TEMPLATE after the language placeholder. -/
def SYSTEM_PROMPT_AFTER_LANGUAGE : String :=
  ".\n- End every response with the disclaimer: '⚠️ This is not a substitute for professional medical consultation.'\n\n"

/-- `SYSTEM_PROMPT_TEMPLATE.format(language=language)` (main.py line 40). -/
def renderSystemPrompt (language : String) : String :=
  SYSTEM_PROMPT_BEFORE_LANGUAGE ++ language ++ SYSTEM_PROMPT_AFTER_LANGUAGE

/-- The fixed acknowledgment text of the priming "model" turn (line 41). -/
def ACK_TEXT : String := "Understood. I will follow all the provided instructions."

/-- Fixed safety apology string (line 81). -/
def SAFETY_MSG : String :=
  "I'm sorry, I cannot respond to that query. It may have been flagged for safety reasons."

/-- Fixed generic retry string (line 82). -/
def RETRY_MSG : String := "Sorry, I couldn't generate a response. Please try again."

/-- Fixed internal-error string (line 86). -/
def INTERNAL_ERROR_MSG : String := "An internal error occurred. Please try again."

/-- The synthetic priming "user" turn (line 40). -/
def primingUser (language : String) : Turn :=
  ⟨"user", [PayloadPart.text (renderSystemPrompt language)]⟩

/-- The synthetic priming "model" turn (line 41). -/
def primingModel : Turn := ⟨"model", [PayloadPart.text ACK_TEXT]⟩

/-- The per-message payload turn (lines 44-48): role `user` maps to "user",
role `assistant` maps to "model", the content is the single part. -/
def toTurn (m : Message) : Turn :=
  match m.role with
  | Role.user => ⟨"user", [PayloadPart.text m.content]⟩
  | Role.assistant => ⟨"model", [PayloadPart.text m.content]⟩

/-- `turn["parts"].append(inline_data dict)` (lines 53-58). -/
def appendInline (t : Turn) (d : String) : Turn :=
  ⟨t.role, t.parts ++ [PayloadPart.inline_data "image/png" d]⟩

/-- `conversation_history[-1]["parts"].append(...)` (lines 52-58): the list
with the inline-data part appended to its last element. -/
def attachLast (d : String) : List Turn → List Turn
  | [] => []
  | [t] => [appendInline t d]
  | t :: u :: ts => t :: attachLast d (u :: ts)

/-- Python truthiness of the `attachment_b64` argument: a present, non-empty
string. -/
def attTruthy : Option String → Bool
  | some d => d != ""
  | none => false

/-- The conversation-history payload built by `get_medibot_reply`
(lines 39-58): the priming pair, one turn per message, and the attachment
appended to the last turn of the payload when `attachment_b64` is truthy
(the `and conversation_history` conjunct of line 51 is kept as written). -/
def buildHistory (language : String) (messages : List Message)
    (attachment_b64 : Option String) : List Turn :=
  let h := primingUser language :: primingModel :: messages.map toTurn
  match attachment_b64 with
  | some d => if (d != "") && !h.isEmpty then attachLast d h else h
  | none => h

/-- The outcome of `chat.send_message` as `get_medibot_reply` observes it:
a response object with a `text` string ("" for falsy text) and an optional
`prompt_feedback`; a falsy response; or a raised exception. -/
inductive CallResult
  | response (text : String) (prompt_feedback : Option String)
  | falsy
  | raises
deriving DecidableEq, Repr

/-- The response inspection of lines 76-82, with the `except` clause of
lines 84-86 handling a raised call. -/
def extractReply : CallResult → String
  | CallResult.response t fb =>
    if t != "" then t
    else
      match fb with
      | some _ => SAFETY_MSG
      | none => RETRY_MSG
  | CallResult.falsy => RETRY_MSG
  | CallResult.raises => INTERNAL_ERROR_MSG

/-- `get_medibot_reply(messages, language, attachment_b64)` (lines 33-86),
with the remote interaction abstracted as `send` (payload and latest message
text to call outcome). The body runs inside try/except: the out-of-bounds
`messages[-1]` access on an empty list raises IndexError, lands in the
except clause before any remote call, and yields the internal-error
string. -/
def get_medibot_reply (send : List Turn → String → CallResult)
    (messages : List Message) (language : String)
    (attachment_b64 : Option String) : String :=
  let history := buildHistory language messages attachment_b64
  match messages.getLast? with
  | none => INTERNAL_ERROR_MSG
  | some lastMsg => extractReply (send history lastMsg.content)

/-- Python whitespace characters stripped by `str.strip()` (ASCII range). -/
def isPySpace (c : Char) : Bool :=
  c == ' ' || c == '\t' || c == '\n' || c == '\r' || c == '\x0b' || c == '\x0c'

/-- `user_input.strip()`. -/
def pyStrip (s : String) : String :=
  String.mk (((s.data.dropWhile isPySpace).reverse.dropWhile isPySpace).reverse)

/-- The module-level submit handler (main.py lines 143-152): when the form
was submitted and the stripped input is non-empty, append the user message,
obtain the reply with the whole transcript, append the assistant message;
otherwise leave the transcript alone. -/
def handle_turn (send : List Turn → String → CallResult)
    (messages : List Message) (user_input : String)
    (attachment_b64 : Option String) (submitted : Bool) : List Message :=
  if submitted && (pyStrip user_input != "") then
    let user_msg : Message := ⟨Role.user, pyStrip user_input, none⟩
    let msgs1 := messages ++ [user_msg]
    let reply_text := get_medibot_reply send msgs1 "English" attachment_b64
    msgs1 ++ [⟨Role.assistant, reply_text, none⟩]
  else messages

/-- A transcript made of completed cycles: user/assistant pairs in order. -/
def completedAlt : List Message → Bool
  | [] => true
  | [_] => false
  | u :: a :: rest => (u.role == Role.user && a.role == Role.assistant) && completedAlt rest

/-- An oracle whose call returns a falsy response. -/
def constFalsySend : List Turn → String → CallResult := fun _ _ => CallResult.falsy

/-- An oracle whose call always raises. -/
def alwaysRaisesSend : List Turn → String → CallResult := fun _ _ => CallResult.raises

/-- Whether a payload turn carries an inline-data part. -/
def hasInlinePart (t : Turn) : Bool :=
  t.parts.any fun p =>
    match p with
    | PayloadPart.inline_data _ _ => true
    | _ => false

/-! Helper lemmas about the embedded operations. -/

theorem attachLast_length (d : String) : ∀ l : List Turn, (attachLast d l).length = l.length
  | [] => rfl
  | [_] => rfl
  | _ :: u :: ts => by
    simp [attachLast, attachLast_length d (u :: ts)]

theorem attachLast_dropLast (d : String) : ∀ l : List Turn, (attachLast d l).dropLast = l.dropLast
  | [] => rfl
  | [_] => rfl
  | t :: u :: ts => by
    have h := attachLast_length d (u :: ts)
    cases hh : attachLast d (u :: ts) with
    | nil => simp [hh] at h
    | cons x xs =>
      simp [attachLast, hh]
      rw [← hh]
      exact attachLast_dropLast d (u :: ts)

theorem attachLast_getLast? (d : String) :
    ∀ l : List Turn, (attachLast d l).getLast? = l.getLast?.map (fun t => appendInline t d)
  | [] => rfl
  | [_] => rfl
  | t :: u :: ts => by
    have h := attachLast_getLast? d (u :: ts)
    cases hh : attachLast d (u :: ts) with
    | nil =>
      have hl := attachLast_length d (u :: ts)
      simp [hh] at hl
    | cons x xs =>
      rw [show attachLast d (t :: u :: ts) = t :: attachLast d (u :: ts) from rfl, hh,
        List.getLast?_cons_cons, ← hh, h, List.getLast?_cons_cons]

theorem attachLast_getElem? (d : String) :
    ∀ (l : List Turn) (i : Nat),
      (attachLast d l)[i]? =
        if i + 1 = l.length then (l[i]?).map (fun t => appendInline t d) else l[i]?
  | [], i => by simp [attachLast]
  | [t], i => by
    cases i with
    | zero => simp [attachLast]
    | succ n => simp [attachLast]
  | t :: u :: ts, i => by
    cases i with
    | zero => simp [attachLast, List.length_cons]
    | succ n =>
      simp only [attachLast, List.getElem?_cons_succ, List.length_cons]
      rw [attachLast_getElem? d (u :: ts) n]
      simp [Nat.succ_eq_add_one]

theorem buildHistory_none (language : String) (messages : List Message) :
    buildHistory language messages none
      = primingUser language :: primingModel :: messages.map toTurn := rfl

theorem buildHistory_some_empty (language : String) (messages : List Message) :
    buildHistory language messages (some "")
      = primingUser language :: primingModel :: messages.map toTurn := rfl

theorem buildHistory_some (language : String) (messages : List Message) (d : String)
    (hd : d ≠ "") :
    buildHistory language messages (some d)
      = attachLast d (primingUser language :: primingModel :: messages.map toTurn) := by
  simp [buildHistory, hd]

theorem buildHistory_length (language : String) (messages : List Message)
    (att : Option String) :
    (buildHistory language messages att).length = 2 + messages.length := by
  match att with
  | none => simp [buildHistory_none]; omega
  | some d =>
    by_cases hd : d = ""
    · subst hd; simp [buildHistory_some_empty]; omega
    · rw [buildHistory_some _ _ _ hd, attachLast_length]; simp; omega

theorem base_getElem? (language : String) (messages : List Message) (i : Nat) :
    (primingUser language :: primingModel :: messages.map toTurn)[i + 2]?
      = (messages[i]?).map toTurn := by
  rw [show i + 2 = (i + 1) + 1 from rfl, List.getElem?_cons_succ, List.getElem?_cons_succ,
    List.getElem?_map]

theorem base_no_inline (language : String) (messages : List Message) :
    ∀ t ∈ primingUser language :: primingModel :: messages.map toTurn,
      hasInlinePart t = false := by
  intro t ht
  rcases List.mem_cons.mp ht with h1 | ht2
  · subst h1; rfl
  rcases List.mem_cons.mp ht2 with h2 | ht3
  · subst h2; rfl
  · rcases List.mem_map.mp ht3 with ⟨m, _, hm⟩
    subst hm
    cases hr : m.role <;> simp [toTurn, hr, hasInlinePart]

theorem completedAlt_append (u a : Message) (hu : u.role = Role.user)
    (ha : a.role = Role.assistant) :
    ∀ l : List Message, completedAlt l = true → completedAlt (l ++ [u, a]) = true
  | [], _ => by simp [completedAlt, hu, ha]
  | [x], h => by simp [completedAlt] at h
  | x :: y :: rest, h => by
    simp only [completedAlt, Bool.and_eq_true, beq_iff_eq] at h
    simp only [List.cons_append, completedAlt, Bool.and_eq_true, beq_iff_eq]
    exact ⟨h.1, completedAlt_append u a hu ha rest h.2⟩

theorem pyStrip_of_all_space (s : String) (h : s.data.all isPySpace = true) :
    pyStrip s = "" := by
  have h1 : s.data.dropWhile isPySpace = [] := by
    rw [List.dropWhile_eq_nil_iff]
    intro x hx
    exact List.all_eq_true.mp h x hx
  simp [pyStrip, h1]

theorem handle_turn_accepted (send : List Turn → String → CallResult)
    (messages : List Message) (user_input : String) (att : Option String)
    (hne : pyStrip user_input ≠ "") :
    handle_turn send messages user_input att true
      = messages ++ [⟨Role.user, pyStrip user_input, none⟩,
          ⟨Role.assistant,
            get_medibot_reply send (messages ++ [⟨Role.user, pyStrip user_input, none⟩])
              "English" att, none⟩] := by
  simp [handle_turn, hne]

theorem get_medibot_reply_nonempty (send : List Turn → String → CallResult)
    (messages : List Message) (m : Message) (language : String) (att : Option String) :
    get_medibot_reply send (messages ++ [m]) language att
      = extractReply (send (buildHistory language (messages ++ [m]) att) m.content) := by
  simp [get_medibot_reply, List.getLast?_concat]

/-- C1: for an accepted turn (submitted, stripped input non-empty) the handler
appends exactly the user message with the submitted text followed by one
assistant message, and a transcript of completed cycles stays in strict
user/assistant alternation starting with user. -/
theorem c1_accepted_turn_appends_user_then_assistant
    (send : List Turn → String → CallResult) (messages : List Message)
    (user_input : String) (att : Option String)
    (hne : pyStrip user_input ≠ "") (hcycles : completedAlt messages = true) :
    handle_turn send messages user_input att true
      = messages ++ [⟨Role.user, pyStrip user_input, none⟩,
          ⟨Role.assistant,
            get_medibot_reply send (messages ++ [⟨Role.user, pyStrip user_input, none⟩])
              "English" att, none⟩] ∧
    completedAlt (handle_turn send messages user_input att true) = true := by
  have he := handle_turn_accepted send messages user_input att hne
  refine ⟨he, ?_⟩
  rw [he]
  exact completedAlt_append _ _ rfl rfl messages hcycles

/-- C1 witness at a concrete accepted turn. -/
theorem c1_accepted_turn_appends_user_then_assistant_witness :
    pyStrip "hi" ≠ "" ∧ completedAlt [] = true ∧
    completedAlt (handle_turn constFalsySend [] "hi" none true) = true :=
  ⟨by decide, rfl,
    (c1_accepted_turn_appends_user_then_assistant constFalsySend [] "hi" none
      (by decide) rfl).2⟩

/-- C2 evaluation at the failing input: with an empty transcript and a truthy
attachment the builder does not fail; it appends the inline-data part to the
priming acknowledgment turn, and `get_medibot_reply` returns the
internal-error string only through the caught out-of-bounds access to the
last message. -/
theorem c2_attachment_empty_transcript_eval :
    (buildHistory "English" [] (some "QUJD"))[1]?
      = some ⟨"model", [PayloadPart.text ACK_TEXT,
          PayloadPart.inline_data "image/png" "QUJD"]⟩ ∧
    get_medibot_reply constFalsySend [] "English" (some "QUJD")
      = INTERNAL_ERROR_MSG :=
  ⟨rfl, rfl⟩

/-- C3: the reply extractor is total with first-match-wins order — every call
outcome yields a non-empty display string: the text verbatim when non-empty,
the fixed safety apology when blocked, the fixed retry message when
empty/falsy, the fixed internal-error message when the call raised. -/
theorem c3_extract_total (r : CallResult) :
    extractReply r ≠ "" ∧
    (∀ t fb, r = CallResult.response t fb → t ≠ "" → extractReply r = t) ∧
    (∀ fb, r = CallResult.response "" (some fb) → extractReply r = SAFETY_MSG) ∧
    ((r = CallResult.response "" none ∨ r = CallResult.falsy) →
      extractReply r = RETRY_MSG) ∧
    (r = CallResult.raises → extractReply r = INTERNAL_ERROR_MSG) := by
  refine ⟨?_, ?_, ?_, ?_, ?_⟩
  · cases r with
    | response t fb =>
      by_cases ht : t = ""
      · subst ht
        cases fb with
        | none => decide
        | some f =>
          show SAFETY_MSG ≠ ""
          decide
      · simp [extractReply, ht]
    | falsy => decide
    | raises => decide
  · rintro t fb rfl ht
    simp [extractReply, ht]
  · rintro fb rfl
    rfl
  · rintro (rfl | rfl) <;> rfl
  · rintro rfl
    rfl

/-- C3 witness: a non-empty text is returned verbatim. -/
theorem c3_extract_total_witness :
    extractReply (CallResult.response "Rest and hydrate." none) = "Rest and hydrate." :=
  (c3_extract_total (CallResult.response "Rest and hydrate." none)).2.1
    "Rest and hydrate." none rfl (by decide)

/-- C4: when the remote call raises, the turn still appends the user message
and one assistant message whose content is the fixed internal-error string,
and the transcript grows by exactly two. -/
theorem c4_remote_error_still_appends_pair
    (send : List Turn → String → CallResult) (messages : List Message)
    (user_input : String) (att : Option String)
    (hraises : ∀ p m, send p m = CallResult.raises)
    (hne : pyStrip user_input ≠ "") :
    handle_turn send messages user_input att true
      = messages ++ [⟨Role.user, pyStrip user_input, none⟩,
          ⟨Role.assistant, INTERNAL_ERROR_MSG, none⟩] ∧
    (handle_turn send messages user_input att true).length = messages.length + 2 := by
  have he := handle_turn_accepted send messages user_input att hne
  have hr : get_medibot_reply send
      (messages ++ [⟨Role.user, pyStrip user_input, none⟩]) "English" att
      = INTERNAL_ERROR_MSG := by
    rw [get_medibot_reply_nonempty, hraises]
    rfl
  rw [he, hr]
  exact ⟨rfl, by simp⟩

/-- C4 witness at a concrete raising turn. -/
theorem c4_remote_error_still_appends_pair_witness :
    (∀ p m, alwaysRaisesSend p m = CallResult.raises) ∧ pyStrip "hi" ≠ "" ∧
    (handle_turn alwaysRaisesSend [] "hi" none true).length
      = List.length ([] : List Message) + 2 :=
  ⟨fun _ _ => rfl, by decide,
    (c4_remote_error_still_appends_pair alwaysRaisesSend [] "hi" none
      (fun _ _ => rfl) (by decide)).2⟩

set_option maxRecDepth 4000 in
/-- C5 counterexample: with an empty transcript and an attachment, the first
two payload entries are not the unmodified priming pair — the inline-data
part lands on the priming acknowledgment turn. -/
theorem c5_counterexample :
    (buildHistory "English" [] (some "AA")).take 2
      ≠ [primingUser "English", primingModel] := by decide

/-- C5 (amended): for every language and transcript, the first two payload
entries are exactly the synthetic priming pair whenever the transcript is
non-empty or no truthy attachment is supplied (with a truthy attachment and
an empty transcript, the inline-data part is appended to the second priming
entry). -/
theorem c5_priming_pair (language : String) (messages : List Message)
    (att : Option String) (h : messages ≠ [] ∨ attTruthy att = false) :
    (buildHistory language messages att).take 2
      = [primingUser language, primingModel] := by
  cases att with
  | none => rfl
  | some d =>
    by_cases hd : d = ""
    · subst hd; rfl
    · rcases h with hm | hf
      · cases messages with
        | nil => exact absurd rfl hm
        | cons m ms =>
          rw [buildHistory_some _ _ _ hd]
          simp [attachLast, List.map_cons, List.take_succ_cons]
      · simp [attTruthy, hd] at hf

/-- C5 witness at a concrete language and empty attachment. -/
theorem c5_priming_pair_witness :
    attTruthy none = false ∧
    (buildHistory "English" [] none).take 2 = [primingUser "English", primingModel] :=
  ⟨rfl, c5_priming_pair "English" [] none (Or.inr rfl)⟩

/-- C6: a truthy attachment is appended as an inline-data part (`image/png`,
given base64 data) onto the last payload turn only: no turn before the last
carries an inline-data part, and the last turn's final part is the inline
data. -/
theorem c6_attachment_binds_last_turn_only (language : String)
    (messages : List Message) (d : String) (hd : d ≠ "") :
    (∀ t ∈ (buildHistory language messages (some d)).dropLast,
      hasInlinePart t = false) ∧
    ((buildHistory language messages (some d)).getLast?.map fun t => t.parts.getLast?)
      = some (some (PayloadPart.inline_data "image/png" d)) := by
  rw [buildHistory_some _ _ _ hd]
  constructor
  · intro t ht
    rw [attachLast_dropLast] at ht
    exact base_no_inline language messages t ((List.dropLast_sublist _).mem ht)
  · rw [attachLast_getLast?]
    cases hb : (primingUser language :: primingModel :: messages.map toTurn).getLast? with
    | none => simp at hb
    | some t0 => simp [appendInline, List.getLast?_concat]

/-- C6 witness at a concrete one-message transcript. -/
theorem c6_attachment_binds_last_turn_only_witness :
    ("QUJD" ≠ ("" : String)) ∧
    ((buildHistory "English" [⟨Role.user, "hi", none⟩] (some "QUJD")).getLast?.map
        fun t => t.parts.getLast?)
      = some (some (PayloadPart.inline_data "image/png" "QUJD")) :=
  ⟨by decide,
    (c6_attachment_binds_last_turn_only "English" [⟨Role.user, "hi", none⟩] "QUJD"
      (by decide)).2⟩

/-- C7: after the priming pair the payload holds exactly one turn per
transcript message in order — the payload length is two plus the transcript
length, the turn at offset two plus the message index carries role "user"
for a user message and "model" for an assistant one, and its first part is
that message's content. -/
theorem c7_one_turn_per_message (language : String) (messages : List Message)
    (att : Option String) (i : Nat) :
    (buildHistory language messages att).length = 2 + messages.length ∧
    ((buildHistory language messages att)[i + 2]?).map Turn.role
      = (messages[i]?).map (fun m =>
          match m.role with
          | Role.user => "user"
          | Role.assistant => "model") ∧
    ((buildHistory language messages att)[i + 2]?).map (fun t => t.parts.head?)
      = (messages[i]?).map (fun m => some (PayloadPart.text m.content)) := by
  have key : (buildHistory language messages att)[i + 2]? = (messages[i]?).map toTurn
      ∨ ∃ d, (buildHistory language messages att)[i + 2]?
          = ((messages[i]?).map toTurn).map (fun t => appendInline t d) := by
    cases att with
    | none =>
      exact Or.inl (by rw [buildHistory_none]; exact base_getElem? language messages i)
    | some d =>
      by_cases hd : d = ""
      · subst hd
        exact Or.inl (by rw [buildHistory_some_empty]; exact base_getElem? language messages i)
      · rw [buildHistory_some _ _ _ hd, attachLast_getElem?]
        split
        · exact Or.inr ⟨d, by rw [base_getElem? language messages i]⟩
        · exact Or.inl (base_getElem? language messages i)
  refine ⟨buildHistory_length language messages att, ?_, ?_⟩
  · rcases key with hk | ⟨d, hk⟩ <;> rw [hk] <;> cases hm : messages[i]? with
    | none => rfl
    | some m => cases hr : m.role <;> simp [toTurn, hr, appendInline]
  · rcases key with hk | ⟨d, hk⟩ <;> rw [hk] <;> cases hm : messages[i]? with
    | none => rfl
    | some m => cases hr : m.role <;> simp [toTurn, hr, appendInline]

/-- C8: a submission whose text is empty or whitespace-only is a no-op: the
transcript is returned unchanged for every oracle, so no remote call can be
observed. -/
theorem c8_whitespace_noop (send : List Turn → String → CallResult)
    (messages : List Message) (user_input : String) (att : Option String)
    (submitted : Bool) (h : user_input.data.all isPySpace = true) :
    handle_turn send messages user_input att submitted = messages := by
  have hs : pyStrip user_input = "" := pyStrip_of_all_space user_input h
  simp [handle_turn, hs]

/-- C8 witness at a concrete whitespace-only input. -/
theorem c8_whitespace_noop_witness :
    (" \t\n ".data.all isPySpace = true) ∧
    handle_turn constFalsySend [] " \t\n " none true = [] :=
  ⟨by decide, c8_whitespace_noop constFalsySend [] " \t\n " none true (by decide)⟩

/-- C9: a turn never rewrites the existing transcript — the prior messages
are an unchanged prefix of the result — and the messages the turn appends
carry no attachment, so the attachment blob is never written into the
transcript. -/
theorem c9_prior_transcript_preserved_no_blob
    (send : List Turn → String → CallResult) (messages : List Message)
    (user_input : String) (att : Option String) (submitted : Bool) :
    (handle_turn send messages user_input att submitted).take messages.length
      = messages ∧
    ∀ m ∈ (handle_turn send messages user_input att submitted).drop messages.length,
      m.attachment = none := by
  simp only [handle_turn]
  split
  · constructor
    · rw [List.append_assoc]
      exact List.take_left messages _
    · intro m hm
      rw [List.append_assoc, List.drop_left] at hm
      simp only [List.singleton_append, List.mem_cons, List.mem_singleton] at hm
      rcases hm with rfl | rfl | h
      · rfl
      · rfl
      · cases h
  · simp

/-- C10: calling `get_medibot_reply` with an empty message list yields the
fixed internal-error string for every oracle, language and attachment: the
out-of-bounds last-message access is caught by the handler. -/
theorem c10_empty_messages_internal_error (send : List Turn → String → CallResult)
    (language : String) (att : Option String) :
    get_medibot_reply send [] language att = INTERNAL_ERROR_MSG := rfl
